import Mathlib

/-!
Verification development for the Election-Outcome-Prediction repository.

The development shallowly embeds, in Lean 4 over Mathlib:
  * the offline data cleaner (src/preprocess.py): duplicate removal, party-name
    canonicalisation, group-by-(year, party) with first-occurrence keep,
    candidate-type encoding, winner recomputation by maximum MLA strength per
    year, and the final sort;
  * the random-forest Flask service (app.py): feature derivation
    (alliance-majority flag, normalised shares), recency weights, the predict
    endpoint with its full input validation, the recency-weighted party win
    rate, and the stats record count;
  * the logistic-regression Flask service (election_prediction_project/app.py):
    the unweighted party win rate.

Numbers are modelled as exact rationals (the numeric claims checked here do not
depend on binary floating-point representation issues); Python round(x, n) is
modelled as round-half-to-even on rationals; Python float(s) is modelled as a
parser for plain decimal literals (optional sign, digits, optional fractional
part, surrounding whitespace), which covers every literal exercised by the
claims.  The fitted classifier itself is opaque: it is a parameter of the
prediction pipeline (a pair of functions from feature vectors to a label and a
probability), since no claim depends on the learned coefficients.
-/

/-! ## Generic list helpers -/

/-- Keep the first occurrence of each element, dropping later duplicates.
Models pandas drop_duplicates / Series.unique ordering (first occurrence kept).
The accumulator holds the elements already emitted. -/
def dedupFirstAux {α : Type} [DecidableEq α] (seen : List α) : List α → List α
  | [] => []
  | x :: xs => if x ∈ seen then dedupFirstAux seen xs else x :: dedupFirstAux (x :: seen) xs

/-- Keep the first occurrence of each element of the list. -/
def dedupFirst {α : Type} [DecidableEq α] (l : List α) : List α := dedupFirstAux [] l

/-- Maximum of a list of integers, 0 for the empty list.  Models Series.max()
on a column known to be nonempty (the empty default is never relevant there). -/
def listMaxInt : List Int → Int
  | [] => 0
  | x :: xs => xs.foldl max x

/-! ## Data model

The cleaned table (clean_election.csv) has one row per (year, party) with
integer strength columns, an integer-encoded candidate type and a 0/1 winner
flag.  The raw table (converted_data.csv) carries the candidate type as text. -/

/-- One raw input row of the cleaner (converted_data.csv). -/
structure RawRow where
  year : Int
  party : String
  mla_strength : Int
  alliance_mla_strength : Int
  past_rs_wins : Int
  candidate_type : String
  winner : Int
deriving DecidableEq

/-- One cleaned election record (clean_election.csv): candidate type is the
integer code produced by the cleaner map (none when the token is unmapped,
matching the NaN pandas leaves behind). -/
structure Row where
  year : Int
  party : String
  mla_strength : Int
  alliance_mla_strength : Int
  past_rs_wins : Int
  candidate_type : Option Int
  winner : Int
deriving DecidableEq

instance : Inhabited Row := ⟨⟨0, "", 0, 0, 0, none, 0⟩⟩

/-! ## Data Cleaner (src/preprocess.py) -/

/-- Party-name canonicalisation map of preprocess.py (the party_map dict,
applied with Series.replace, identity off the listed keys). -/
def canonParty (s : String) : String :=
  if s = "INC(I)" then "INC"
  else if s = "Shiv Sena (UBT)" then "SS"
  else if s = "Shiv Sena (Shinde)" then "SS"
  else if s = "Shiv Sena" then "SS"
  else if s = "NCP (Ajit)" then "NCP"
  else if s = "NCP (SP)" then "NCP"
  else s

/-- Candidate-type encoding of the cleaner: the candidate_map dict of
preprocess.py, applied with Series.map (unmapped tokens become missing). -/
def candidate_map : List (String × Int) := [("new", 0), ("mixed", 1), ("incumbent", 2)]

/-- Grouping key used by the cleaner: (year, party). -/
def rowKey (r : RawRow) : Int × String := (r.year, r.party)

/-- Strict lexicographic comparison of character lists by code point, the
order Python string comparison uses. -/
def charListLtb : List Char → List Char → Bool
  | [], [] => false
  | [], _ :: _ => true
  | _ :: _, [] => false
  | a :: as, b :: bs =>
    if a.toNat < b.toNat then true
    else if b.toNat < a.toNat then false
    else charListLtb as bs

/-- Strict code-point order on strings. -/
def strLt (a b : String) : Prop := charListLtb a.data b.data = true

instance : DecidableRel strLt := fun a b => by unfold strLt; exact inferInstance

/-- Ascending lexicographic order on (year, party) keys, as pandas groupby
sorts its groups. -/
def keyLE (a b : Int × String) : Prop := a.1 < b.1 ∨ (a.1 = b.1 ∧ ¬ strLt b.2 a.2)

instance : DecidableRel keyLE := fun a b => by unfold keyLE; exact inferInstance

/-- Models groupby([year, party]).first().reset_index(): one row per distinct
key (the first matching input row), rows ordered by ascending key. -/
def groupFirst (rows : List RawRow) : List RawRow :=
  let keys := dedupFirst (rows.map rowKey)
  let sortedKeys := List.insertionSort keyLE keys
  sortedKeys.filterMap (fun k => rows.find? (fun r => rowKey r == k))

/-- Encode the candidate-type column of one row through candidate_map. -/
def encodeCandidateRow (r : RawRow) : Row :=
  { year := r.year
    party := r.party
    mla_strength := r.mla_strength
    alliance_mla_strength := r.alliance_mla_strength
    past_rs_wins := r.past_rs_wins
    candidate_type := candidate_map.lookup r.candidate_type
    winner := r.winner }

/-- Index of the first row (by position) attaining the maximum mla_strength
among the given positions; models Series.idxmax on an integer-labelled frame.
The rows list supplies the values, the second argument the candidate labels. -/
def idxmaxFrom (rows : List Row) : List ℕ → Option ℕ
  | [] => none
  | i :: rest =>
    match idxmaxFrom rows rest with
    | none => some i
    | some j =>
      if (rows.getD j default).mla_strength > (rows.getD i default).mla_strength then some j
      else some i

/-- Positions of the rows of a given year, in order (the labels of
raw[raw.year == y] after reset_index). -/
def yearIdxList (rows : List Row) (y : Int) : List ℕ :=
  (List.range rows.length).filter (fun i => (rows.getD i default).year == y)

/-- Label selected by year_data.mla_strength.idxmax() for one year. -/
def yearWinnerIdx (rows : List Row) (y : Int) : Option ℕ :=
  idxmaxFrom rows (yearIdxList rows y)

/-- Winner recomputation loop of preprocess.py: winner is reset to 0
everywhere, then for each year the idxmax row of that year gets winner 1.
The final state gives row i winner 1 exactly when i is the selected label of
its own year. -/
def fixWinner (rows : List Row) : List Row :=
  (List.range rows.length).map (fun i =>
    let r := rows.getD i default
    { r with winner := if yearWinnerIdx rows r.year = some i then 1 else 0 })

/-- Final ordering of the cleaner output: year ascending, mla_strength
descending within a year (sort_values with ascending=[True, False]). -/
def finalRowLE (a b : Row) : Prop := a.year < b.year ∨ (a.year = b.year ∧ b.mla_strength ≤ a.mla_strength)

instance : DecidableRel finalRowLE := fun a b => by unfold finalRowLE; exact inferInstance

/-- Cleaner stages before the winner recomputation: drop exact duplicates,
canonicalise party names, keep one row per (year, party), encode the
candidate type. -/
def preWinner (raw : List RawRow) : List Row :=
  (groupFirst ((dedupFirst raw).map (fun r => { r with party := canonParty r.party }))).map
    encodeCandidateRow

/-- Full cleaner pipeline of src/preprocess.py: the stages of preWinner, then
the winner recomputation, then the final sort. -/
def cleanData (raw : List RawRow) : List Row :=
  List.insertionSort finalRowLE (fixWinner (preWinner raw))

/-! ## Python primitives used by the services -/

/-- ASCII lowering of a string, modelling str.lower() on the tokens involved. -/
def pyLower (s : String) : String := String.mk (s.data.map Char.toLower)

/-- Strip leading and trailing whitespace from a character list. -/
def stripChars (l : List Char) : List Char :=
  ((l.dropWhile Char.isWhitespace).reverse.dropWhile Char.isWhitespace).reverse

/-- Models str.strip(). -/
def pyStrip (s : String) : String := String.mk (stripChars s.data)

/-- Value of a digit string read in base 10. -/
def digitsVal (l : List Char) : ℕ := l.foldl (fun n c => 10 * n + (c.toNat - 48)) 0

/-- Split a character list at every occurrence of the given character. -/
def splitOnChar (c : Char) : List Char → List (List Char)
  | [] => [[]]
  | x :: xs =>
    let r := splitOnChar c xs
    if x == c then [] :: r
    else (x :: r.headD []) :: r.tail

/-- Peel a leading sign character, returning whether the value is negated
and the remaining characters. -/
def splitSign : List Char → Bool × List Char
  | '-' :: rest => (true, rest)
  | '+' :: rest => (false, rest)
  | t => (false, t)

/-- Negate when the flag is set. -/
def applyNeg (b : Bool) (q : ℚ) : ℚ := if b then -q else q

/-- Models Python float(s) on plain decimal literals: surrounding whitespace
is ignored, an optional sign precedes digits with at most one decimal point,
and at least one digit must be present.  Exponent notation, inf and nan are
outside the fragment exercised by the specification and are rejected here. -/
def parseDecimalChars (l : List Char) : Option ℚ :=
  let sb := splitSign (stripChars l)
  match splitOnChar '.' sb.2 with
  | [ip] =>
    if ip ≠ [] ∧ ip.all Char.isDigit then some (applyNeg sb.1 (digitsVal ip : ℚ)) else none
  | [ip, fp] =>
    if (ip ≠ [] ∨ fp ≠ []) ∧ ip.all Char.isDigit ∧ fp.all Char.isDigit then
      some (applyNeg sb.1 ((digitsVal ip : ℚ) + (digitsVal fp : ℚ) / (10 : ℚ) ^ fp.length))
    else none
  | _ => none

/-- Models Python float on a string argument. -/
def parseDecimal (s : String) : Option ℚ := parseDecimalChars s.data

/-- Round a rational to the nearest integer, ties to even, modelling the
rounding mode of Python round(). -/
def roundHalfEven (q : ℚ) : ℤ :=
  let f := ⌊q⌋
  let frac := q - (f : ℚ)
  if frac < 1/2 then f
  else if 1/2 < frac then f + 1
  else if f % 2 = 0 then f else f + 1

/-- Models Python round(x, 1) on rationals. -/
def pyRound1 (q : ℚ) : ℚ := (roundHalfEven (q * 10) : ℚ) / 10

/-- Models Python round(x, 2) on rationals. -/
def pyRound2 (q : ℚ) : ℚ := (roundHalfEven (q * 100) : ℚ) / 100

/-! ## Random-forest service (app.py) -/

/-- JSON values of a prediction request body: a string, a number, or any other
JSON value (null, array, object), on which Python float() raises TypeError. -/
inductive JsonVal where
  | vstr (s : String)
  | vnum (q : ℚ)
  | vother
deriving DecidableEq

/-- A prediction request body: association of field names to JSON values. -/
def Req : Type := List (String × JsonVal)

/-- The five required fields of the predict endpoint, in source order. -/
def requiredFields : List String :=
  ["party_name", "mla_strength", "alliance_mla_strength", "past_rs_wins", "candidate_type"]

/-- Field test of the endpoint: field not in request_data or equal to the
empty string. -/
def isMissing (req : Req) (f : String) : Bool :=
  match req.lookup f with
  | none => true
  | some v => v == JsonVal.vstr ""

/-- The missing_fields list comprehension of the predict endpoint. -/
def missingFields (req : Req) : List String := requiredFields.filter (isMissing req)

/-- Field access after the missing check has passed (the default is never
reached on requests that pass it). -/
def getv (req : Req) (f : String) : JsonVal := (req.lookup f).getD JsonVal.vother

/-- Models float(request_data[f]): numbers pass through, strings are parsed
(ValueError on failure), any other value raises TypeError; both exceptions
land in the same handler, so both are none here. -/
def pyFloat : JsonVal → Option ℚ
  | JsonVal.vstr s => parseDecimal s
  | JsonVal.vnum q => some q
  | JsonVal.vother => none

/-- Error taxonomy of the predict endpoint, each constructor one of the
return jsonify error branches. -/
inductive PredictError where
  | missingRequired (fields : List String)
  | invalidNumeric
  | mustBePositive
  | invalidCandidateType (s : String)
  | internalError
deriving DecidableEq

/-- Result of the predict endpoint: an error response, or a success response
carrying the feature vector handed to the model, the predicted label and the
win probability percentage. -/
inductive PredictResult where
  | failure (e : PredictError)
  | success (features : List ℚ) (prediction : Int) (winProbability : ℚ)
deriving DecidableEq

/-- Candidate-type synonym table of the predict endpoint (app.py), keys
already lowercase. -/
def candidate_type_mapping : List (String × ℚ) :=
  [("new", 0), ("first-time", 0), ("firsttime", 0), ("fresh", 0),
   ("incumbent", 1), ("experienced", 1), ("experience", 1), ("senior", 1),
   ("veteran", 1), ("returning", 1),
   ("mixed", 2), ("both", 2),
   ("0", 0), ("1", 1), ("2", 2)]

/-- Candidate-type handling of the predict endpoint: a string is lowercased
and stripped, looked up in the synonym table, and otherwise parsed as a
number (failure gives the invalid-candidate-type response); a JSON number is
accepted as is; any other value raises TypeError into the numeric handler. -/
def resolveCandidateType : JsonVal → Except PredictError ℚ
  | JsonVal.vstr s =>
    let t := pyStrip (pyLower s)
    match candidate_type_mapping.lookup t with
    | some c => Except.ok c
    | none =>
      match parseDecimal t with
      | some q => Except.ok q
      | none => Except.error (PredictError.invalidCandidateType s)
  | JsonVal.vnum q => Except.ok q
  | JsonVal.vother => Except.error PredictError.invalidNumeric

/-- The trained state the predict endpoint closes over: the fitted party
enumeration (le_party.classes_, sorted unique party names) and the opaque
random-forest predict and predict_proba functions. -/
structure Model where
  classes : List String
  predictFn : List ℚ → Int
  probaFn : List ℚ → ℚ

/-- Party encoding of the predict endpoint: le_party.transform on a known
party gives its index in classes_; an unknown party falls back to
transform([classes_[0]]), the code of the first party of the enumeration. -/
def encodeParty (classes : List String) (p : String) : ℕ :=
  match classes.indexOf? p with
  | some i => i
  | none => classes.indexOf (classes.headD "")

/-- Alliance-majority flag as derived during training:
(alliance_mla_strength >= 145).astype(int). -/
def train_has_majority (a : ℚ) : ℚ := if 145 ≤ a then 1 else 0

/-- Normalised MLA share as derived during training: mla_strength / 288. -/
def train_mla_share (s : ℚ) : ℚ := s / 288

/-- Normalised alliance share as derived during training:
alliance_mla_strength / 288. -/
def train_alliance_share (a : ℚ) : ℚ := a / 288

/-- Alliance-majority flag as derived in the predict endpoint:
1 if alliance_mla_strength >= 145 else 0. -/
def pred_has_majority (a : ℚ) : ℚ := if 145 ≤ a then 1 else 0

/-- Normalised MLA share as derived in the predict endpoint. -/
def pred_mla_share (s : ℚ) : ℚ := s / 288

/-- Normalised alliance share as derived in the predict endpoint. -/
def pred_alliance_share (a : ℚ) : ℚ := a / 288

/-- The predict endpoint of app.py.  Validation order follows the source:
missing-field check, float() on the three numeric fields, candidate-type
resolution, the nonnegativity check, then party encoding, feature assembly
and the model call.  A non-string party name would reach le_party.transform
with a non-string and end in the generic handler, modelled as internalError. -/
def predictOp (m : Model) (req : Req) : PredictResult :=
  if missingFields req = [] then
    match pyFloat (getv req "mla_strength") with
    | none => PredictResult.failure PredictError.invalidNumeric
    | some mla =>
      match pyFloat (getv req "alliance_mla_strength") with
      | none => PredictResult.failure PredictError.invalidNumeric
      | some alliance =>
        match pyFloat (getv req "past_rs_wins") with
        | none => PredictResult.failure PredictError.invalidNumeric
        | some past =>
          match resolveCandidateType (getv req "candidate_type") with
          | Except.error e => PredictResult.failure e
          | Except.ok ct =>
            if mla < 0 ∨ alliance < 0 ∨ past < 0 then
              PredictResult.failure PredictError.mustBePositive
            else
              match getv req "party_name" with
              | JsonVal.vstr p =>
                let fv : List ℚ :=
                  [2027, (encodeParty m.classes p : ℚ), mla, alliance, past, ct,
                   pred_has_majority alliance, pred_mla_share mla, pred_alliance_share alliance]
                PredictResult.success fv (m.predictFn fv) (pyRound2 (m.probaFn fv * 100))
              | _ => PredictResult.failure PredictError.internalError
  else
    PredictResult.failure (PredictError.missingRequired (missingFields req))

/-- Maximum year of the training table, data.year.max() in
load_and_train_model. -/
def trainMaxYear (data : List Row) : Int := listMaxInt (data.map (fun r => r.year))

/-- Recency weight of one training record, decay ** (max_year - year) with
decay = 0.85; for records of the table the exponent is nonnegative. -/
def sampleWeight (data : List Row) (r : Row) : ℚ :=
  (0.85 : ℚ) ^ (trainMaxYear data - r.year).toNat

/-- Record count of the /api/stats endpoint: total_records = len(data).
The endpoint computes plain counts and makes no reference to sample
weights. -/
def stats_total_records (data : List Row) : ℕ := data.length

/-- Rows of one party, data[data.party == name]. -/
def partyRows (data : List Row) (p : String) : List Row :=
  data.filter (fun r => r.party == p)

/-- Descending order on year used by get_party_info
(sort_values with ascending=False). -/
def yearDescLE (a b : Row) : Prop := b.year ≤ a.year

instance : DecidableRel yearDescLE := fun a b => by unfold yearDescLE; exact inferInstance

/-- party_data of get_party_info: the rows of the party, year descending. -/
def partyDataSorted (data : List Row) (p : String) : List Row :=
  List.insertionSort yearDescLE (partyRows data p)

/-- Reference year of the weighted win rate in get_party_info of app.py:
int(party_data.year.max()), the maximum year among the rows of this party
(not the dataset-wide maximum). -/
def rfMaxYear (data : List Row) (p : String) : Int :=
  listMaxInt ((partyDataSorted data p).map (fun r => r.year))

/-- Per-row decay weights of get_party_info: DECAY ** (max_year - year) with
DECAY = 0.85 and max_year the reference year of this party. -/
def rfWeights (data : List Row) (p : String) : List ℚ :=
  (partyDataSorted data p).map (fun r => (0.85 : ℚ) ^ (rfMaxYear data p - r.year).toNat)

/-- weighted_wins of get_party_info: (party_data.winner * weights).sum(). -/
def rfWeightedWins (data : List Row) (p : String) : ℚ :=
  ((partyDataSorted data p).map
    (fun r => (r.winner : ℚ) * (0.85 : ℚ) ^ (rfMaxYear data p - r.year).toNat)).sum

/-- total_weight of get_party_info: weights.sum(). -/
def rfTotalWeight (data : List Row) (p : String) : ℚ := (rfWeights data p).sum

/-- The win_rate field returned by get_party_info of app.py (the
random-forest service): recency-weighted share of wins, reference year the
maximum year among the rows of this party, decay 0.85, rounded to one
decimal (the computed rate is rounded once more when the response dict is
assembled); none models the not-found return for a party with no rows. -/
def rfWinRate (data : List Row) (p : String) : Option ℚ :=
  if partyDataSorted data p = [] then none
  else
    some (pyRound1 (if 0 < rfTotalWeight data p then
      pyRound1 (rfWeightedWins data p / rfTotalWeight data p * 100) else 0))

/-! ## Logistic-regression service (election_prediction_project/app.py) -/

/-- Number of rows of the party, total_elections in get_party_info. -/
def lpTotal (data : List Row) (p : String) : ℕ := (partyDataSorted data p).length

/-- Number of winning rows of the party, wins in get_party_info. -/
def lpWins (data : List Row) (p : String) : ℕ :=
  ((partyDataSorted data p).filter (fun r => r.winner == 1)).length

/-- The win_rate field returned by get_party_info of the logistic-regression
service: wins / total_elections * 100, rounded to one decimal in the response
dict; none models the not-found return for a party with no rows. -/
def lpWinRate (data : List Row) (p : String) : Option ℚ :=
  if partyDataSorted data p = [] then none
  else
    some (pyRound1 (if 0 < lpTotal data p then
      (lpWins data p : ℚ) / (lpTotal data p : ℚ) * 100 else 0))

/-! ## Helper lemmas -/

/-- The head seed is a lower bound of a left fold with max. -/
theorem le_foldl_max (a : Int) (l : List Int) : a ≤ l.foldl max a := by
  induction l generalizing a with
  | nil => simp
  | cons x xs ih => exact le_trans (le_max_left a x) (ih (max a x))

/-- Every member of the list is a lower bound of a left fold with max. -/
theorem mem_le_foldl_max : ∀ {l : List Int} (a : Int) {y : Int}, y ∈ l → y ≤ l.foldl max a
  | [], _, _, h => absurd h (List.not_mem_nil _)
  | x :: xs, a, y, h => by
    rcases List.mem_cons.mp h with h1 | h2
    · subst h1
      exact le_trans (le_max_right a y) (le_foldl_max _ _)
    · exact mem_le_foldl_max (max a x) h2

/-- listMaxInt bounds every member of the list. -/
theorem le_listMaxInt {l : List Int} {y : Int} (h : y ∈ l) : y ≤ listMaxInt l := by
  cases l with
  | nil => cases h
  | cons x xs =>
    rcases List.mem_cons.mp h with h1 | h2
    · subst h1
      exact le_foldl_max _ _
    · exact mem_le_foldl_max x h2

/-- roundHalfEven lands on the floor or one above it. -/
theorem roundHalfEven_eq_floor_or (q : ℚ) :
    roundHalfEven q = ⌊q⌋ ∨ roundHalfEven q = ⌊q⌋ + 1 := by
  unfold roundHalfEven
  dsimp only
  split_ifs <;> simp

/-- roundHalfEven respects integer lower bounds. -/
theorem le_roundHalfEven {q : ℚ} {n : ℤ} (h : (n : ℚ) ≤ q) : n ≤ roundHalfEven q := by
  have hf : n ≤ ⌊q⌋ := Int.le_floor.mpr h
  rcases roundHalfEven_eq_floor_or q with h1 | h1 <;> omega

/-- roundHalfEven respects integer upper bounds. -/
theorem roundHalfEven_le {q : ℚ} {n : ℤ} (h : q ≤ (n : ℚ)) : roundHalfEven q ≤ n := by
  have hf : ⌊q⌋ ≤ n := by
    have h2 := Int.floor_le_floor h
    simpa using h2
  have hhalf : ¬ (q - (⌊q⌋ : ℚ) < 1/2) → ⌊q⌋ + 1 ≤ n := by
    intro h1
    have h1p := not_lt.mp h1
    have hfl : (⌊q⌋ : ℚ) + 1/2 ≤ q := by linarith
    have hlt : (⌊q⌋ : ℚ) < (n : ℚ) := by linarith
    have : ⌊q⌋ < n := by exact_mod_cast hlt
    omega
  unfold roundHalfEven
  dsimp only
  split_ifs with h1 h2 h3
  · exact hf
  · exact hhalf h1
  · exact hf
  · exact hhalf h1

/-- idxmaxFrom always returns a label on a nonempty label list. -/
theorem idxmaxFrom_cons_exists (rows : List Row) (i : ℕ) (rest : List ℕ) :
    ∃ j, idxmaxFrom rows (i :: rest) = some j := by
  unfold idxmaxFrom
  cases idxmaxFrom rows rest with
  | none => exact ⟨i, rfl⟩
  | some k =>
    dsimp only
    split
    · exact ⟨k, rfl⟩
    · exact ⟨i, rfl⟩

/-- The label returned by idxmaxFrom is one of the candidates. -/
theorem idxmaxFrom_mem (rows : List Row) :
    ∀ {l : List ℕ} {j : ℕ}, idxmaxFrom rows l = some j → j ∈ l
  | [], _, h => by simp [idxmaxFrom] at h
  | i :: rest, j, h => by
    unfold idxmaxFrom at h
    cases hrec : idxmaxFrom rows rest with
    | none =>
      rw [hrec] at h
      dsimp only at h
      have hij : i = j := Option.some.inj h
      subst hij
      exact List.mem_cons_self _ _
    | some k =>
      rw [hrec] at h
      dsimp only at h
      by_cases hb : (rows.getD k default).mla_strength > (rows.getD i default).mla_strength
      · rw [if_pos hb] at h
        have hkj : k = j := Option.some.inj h
        subst hkj
        exact List.mem_cons_of_mem _ (idxmaxFrom_mem rows hrec)
      · rw [if_neg hb] at h
        have hij : i = j := Option.some.inj h
        subst hij
        exact List.mem_cons_self _ _

/-- The label returned by idxmaxFrom attains the maximum mla_strength among
the candidates. -/
theorem idxmaxFrom_le (rows : List Row) :
    ∀ {l : List ℕ} {j : ℕ}, idxmaxFrom rows l = some j →
      ∀ i ∈ l, (rows.getD i default).mla_strength ≤ (rows.getD j default).mla_strength
  | [], _, _, i, hi => absurd hi (List.not_mem_nil _)
  | i0 :: rest, j, h, i, hi => by
    unfold idxmaxFrom at h
    cases hrec : idxmaxFrom rows rest with
    | none =>
      rw [hrec] at h
      dsimp only at h
      have hij : i0 = j := Option.some.inj h
      subst hij
      have hrest : rest = [] := by
        cases rest with
        | nil => rfl
        | cons a as =>
          obtain ⟨jj, hjj⟩ := idxmaxFrom_cons_exists rows a as
          rw [hjj] at hrec
          cases hrec
      subst hrest
      rcases List.mem_cons.mp hi with h1 | h1
      · subst h1
        exact le_refl _
      · cases h1
    | some k =>
      rw [hrec] at h
      dsimp only at h
      by_cases hb : (rows.getD k default).mla_strength > (rows.getD i0 default).mla_strength
      · rw [if_pos hb] at h
        have hkj : k = j := Option.some.inj h
        subst hkj
        rcases List.mem_cons.mp hi with h1 | h1
        · subst h1
          exact le_of_lt hb
        · exact idxmaxFrom_le rows hrec _ h1
      · rw [if_neg hb] at h
        have hij : i0 = j := Option.some.inj h
        subst hij
        rcases List.mem_cons.mp hi with h1 | h1
        · subst h1
          exact le_refl _
        · exact le_trans (idxmaxFrom_le rows hrec _ h1) (not_lt.mp hb)

/-- Counting a single index inside List.range. -/
theorem countP_beq_range (i0 : ℕ) :
    ∀ n : ℕ, (List.range n).countP (fun i => i == i0) = if i0 < n then 1 else 0
  | 0 => by simp
  | n + 1 => by
    rw [List.range_succ, List.countP_append, countP_beq_range i0 n]
    by_cases h : i0 = n
    · subst h
      simp [Nat.lt_irrefl, Nat.lt_succ_self]
    · have hbeq : (n == i0) = false := beq_eq_false_iff_ne.mpr (Ne.symm h)
      rcases Nat.lt_or_ge i0 n with hlt | hge
      · simp [hlt, Nat.lt_succ_of_lt hlt, hbeq]
      · have h1 : ¬ i0 < n := by omega
        have h2 : ¬ i0 < n + 1 := by omega
        simp [h1, h2, hbeq]

/-- Every error response of the predict endpoint is independent of the
trained model: only the success branch consults it. -/
theorem predictOp_model_indep (m m2 : Model) (req : Req) :
    predictOp m req = predictOp m2 req ∨
    ∃ fv pr pb fv2 pr2 pb2, predictOp m req = PredictResult.success fv pr pb ∧
      predictOp m2 req = PredictResult.success fv2 pr2 pb2 := by
  unfold predictOp
  by_cases hm : missingFields req = []
  · rw [if_pos hm, if_pos hm]
    cases pyFloat (getv req "mla_strength") with
    | none => exact Or.inl rfl
    | some mla =>
      cases pyFloat (getv req "alliance_mla_strength") with
      | none => exact Or.inl rfl
      | some alliance =>
        cases pyFloat (getv req "past_rs_wins") with
        | none => exact Or.inl rfl
        | some past =>
          cases resolveCandidateType (getv req "candidate_type") with
          | error e => exact Or.inl rfl
          | ok ct =>
            dsimp only
            by_cases hneg : mla < 0 ∨ alliance < 0 ∨ past < 0
            · rw [if_pos hneg, if_pos hneg]
              exact Or.inl rfl
            · rw [if_neg hneg, if_neg hneg]
              cases getv req "party_name" with
              | vstr p => exact Or.inr ⟨_, _, _, _, _, _, rfl, rfl⟩
              | vnum q => exact Or.inl rfl
              | vother => exact Or.inl rfl
  · rw [if_neg hm, if_neg hm]
    exact Or.inl rfl

/-- C1: the candidate-type integer code assigned by the data cleaner does
NOT agree with the code the predict endpoint assigns to the same token: the
cleaner (candidate_map of preprocess.py) encodes new to 0, mixed to 1 and
incumbent to 2, while the predict endpoint (candidate_type_mapping of
app.py) encodes new to 0, incumbent to 1 and mixed to 2.  The two maps agree
only on the token new, so training rows and prediction requests do not use
one consistent encoding. -/
theorem cleaner_and_predict_candidate_codes_differ :
    candidate_map.lookup "incumbent" = some 2 ∧
    candidate_type_mapping.lookup "incumbent" = some 1 ∧
    candidate_map.lookup "mixed" = some 1 ∧
    candidate_type_mapping.lookup "mixed" = some 2 ∧
    candidate_map.lookup "new" = some 0 ∧
    candidate_type_mapping.lookup "new" = some 0 :=
  ⟨rfl, rfl, rfl, rfl, rfl, rfl⟩

/-- C8: for every standing with 0 ≤ mla_strength ≤ alliance_mla_strength
≤ 288, the derived shares are the strengths divided by 288 and lie in
[0, 1], the alliance-majority flag is 1 exactly when the alliance strength
reaches 145 (so 203 gives 1), and the training-time and prediction-time
derivations are the same functions. -/
theorem share_and_majority_features (s a : ℚ)
    (h0 : 0 ≤ s) (hsa : s ≤ a) (ha : a ≤ 288) :
    (train_mla_share = pred_mla_share ∧ train_alliance_share = pred_alliance_share ∧
      train_has_majority = pred_has_majority) ∧
    (train_mla_share s = s / 288 ∧ train_alliance_share a = a / 288) ∧
    (0 ≤ train_mla_share s ∧ train_mla_share s ≤ 1) ∧
    (0 ≤ train_alliance_share a ∧ train_alliance_share a ≤ 1) ∧
    (145 ≤ a → train_has_majority a = 1) ∧
    (a < 145 → train_has_majority a = 0) ∧
    train_has_majority 203 = 1 := by
  have h288 : (0 : ℚ) < 288 := by norm_num
  have hs288 : s ≤ 288 := le_trans hsa ha
  have h0a : 0 ≤ a := le_trans h0 hsa
  refine ⟨⟨rfl, rfl, rfl⟩, ⟨rfl, rfl⟩, ⟨?_, ?_⟩, ⟨?_, ?_⟩, ?_, ?_, ?_⟩
  · exact div_nonneg h0 (le_of_lt h288)
  · exact (div_le_one h288).mpr hs288
  · exact div_nonneg h0a (le_of_lt h288)
  · exact (div_le_one h288).mpr ha
  · intro hmaj
    unfold train_has_majority
    rw [if_pos hmaj]
  · intro hlt
    unfold train_has_majority
    rw [if_neg (not_le.mpr hlt)]
  · unfold train_has_majority
    norm_num

/-- Witness for C8 at the specification instance mla_strength = 132,
alliance_mla_strength = 203. -/
theorem share_and_majority_features_witness :
    train_has_majority 203 = 1 ∧ train_mla_share 132 ≤ 1 ∧ 0 ≤ train_mla_share 132 :=
  ⟨(share_and_majority_features 132 203 (by norm_num) (by norm_num) (by norm_num)).2.2.2.2.2.2,
   (share_and_majority_features 132 203 (by norm_num) (by norm_num) (by norm_num)).2.2.1.2,
   (share_and_majority_features 132 203 (by norm_num) (by norm_num) (by norm_num)).2.2.1.1⟩

/-- C3: a prediction request with a required field absent or empty is
rejected with the missing-fields failure, the reported list names exactly
the absent-or-empty required fields, and the model is never consulted (the
response is the same for every model). -/
theorem predict_missing_fields_rejected (m m2 : Model) (req : Req) (f : String)
    (hf : f ∈ requiredFields)
    (habs : req.lookup f = none ∨ req.lookup f = some (JsonVal.vstr "")) :
    predictOp m req = PredictResult.failure (PredictError.missingRequired (missingFields req)) ∧
    f ∈ missingFields req ∧
    (∀ g, g ∈ missingFields req ↔
      g ∈ requiredFields ∧ (req.lookup g = none ∨ req.lookup g = some (JsonVal.vstr ""))) ∧
    predictOp m req = predictOp m2 req := by
  have hmiss : isMissing req f = true := by
    unfold isMissing
    rcases habs with h | h <;> rw [h] <;> simp
  have hfmem : f ∈ missingFields req := List.mem_filter.mpr ⟨hf, hmiss⟩
  have hne : missingFields req ≠ [] := List.ne_nil_of_mem hfmem
  refine ⟨?_, hfmem, ?_, ?_⟩
  · unfold predictOp
    rw [if_neg hne]
  · intro g
    constructor
    · intro hg
      obtain ⟨hg1, hg2⟩ := List.mem_filter.mp hg
      refine ⟨hg1, ?_⟩
      unfold isMissing at hg2
      cases hlk : req.lookup g with
      | none => exact Or.inl rfl
      | some v =>
        rw [hlk] at hg2
        simp only [beq_iff_eq] at hg2
        subst hg2
        exact Or.inr rfl
    · intro hg
      apply List.mem_filter.mpr
      refine ⟨hg.1, ?_⟩
      unfold isMissing
      rcases hg.2 with h | h <;> rw [h] <;> simp
  · unfold predictOp
    rw [if_neg hne, if_neg hne]

/-- Witness for C3: a concrete request without party_name is rejected with a
missing-fields failure naming party_name, identically for two different
models. -/
theorem predict_missing_fields_rejected_witness :
    predictOp ⟨["BJP"], fun _ => 0, fun _ => 1/2⟩ [("mla_strength", JsonVal.vnum 100)] =
      PredictResult.failure
        (PredictError.missingRequired (missingFields [("mla_strength", JsonVal.vnum 100)])) ∧
    "party_name" ∈ missingFields [("mla_strength", JsonVal.vnum 100)] ∧
    (∀ g, g ∈ missingFields [("mla_strength", JsonVal.vnum 100)] ↔
      g ∈ requiredFields ∧
        (List.lookup g [("mla_strength", JsonVal.vnum 100)] = none ∨
         List.lookup g [("mla_strength", JsonVal.vnum 100)] = some (JsonVal.vstr ""))) ∧
    predictOp ⟨["BJP"], fun _ => 0, fun _ => 1/2⟩ [("mla_strength", JsonVal.vnum 100)] =
      predictOp ⟨["INC"], fun _ => 1, fun _ => 1/4⟩ [("mla_strength", JsonVal.vnum 100)] :=
  predict_missing_fields_rejected ⟨["BJP"], fun _ => 0, fun _ => 1/2⟩
    ⟨["INC"], fun _ => 1, fun _ => 1/4⟩ [("mla_strength", JsonVal.vnum 100)]
    "party_name" (by decide) (Or.inl rfl)

/-- A candidate-type resolution error is either the invalid-candidate-type
response for an unrecognised string, or the TypeError of float() on a
non-string non-number value, which surfaces as the invalid-numeric response. -/
theorem resolveCandidateType_error_cases (v : JsonVal) (e : PredictError)
    (h : resolveCandidateType v = Except.error e) :
    (∃ s, v = JsonVal.vstr s ∧ e = PredictError.invalidCandidateType s) ∨
    (v = JsonVal.vother ∧ e = PredictError.invalidNumeric) := by
  cases v with
  | vstr s =>
    left
    refine ⟨s, rfl, ?_⟩
    unfold resolveCandidateType at h
    dsimp only at h
    cases h1 : candidate_type_mapping.lookup (pyStrip (pyLower s)) with
    | some c =>
      rw [h1] at h
      simp at h
    | none =>
      rw [h1] at h
      dsimp only at h
      cases h2 : parseDecimal (pyStrip (pyLower s)) with
      | some q =>
        rw [h2] at h
        simp at h
      | none =>
        rw [h2] at h
        dsimp only at h
        exact (Except.error.inj h).symm
  | vnum q => simp [resolveCandidateType] at h
  | vother =>
    right
    refine ⟨rfl, ?_⟩
    unfold resolveCandidateType at h
    dsimp only at h
    exact (Except.error.inj h).symm

/-- C5: in the predict endpoint a string candidate type is lowercased,
stripped and resolved through the synonym table (Experienced and 1 both give
code 1), a string outside the table that parses as a number is accepted
verbatim (5 gives code 5, no range check), and a string that is neither in
the table nor numeric produces the invalid-candidate-type failure
response. -/
theorem predict_candidate_type_resolution :
    resolveCandidateType (JsonVal.vstr "Experienced") = Except.ok 1 ∧
    resolveCandidateType (JsonVal.vstr "1") = Except.ok 1 ∧
    resolveCandidateType (JsonVal.vstr "5") = Except.ok 5 ∧
    (∀ s : String, candidate_type_mapping.lookup (pyStrip (pyLower s)) = none →
      parseDecimal (pyStrip (pyLower s)) = none →
      resolveCandidateType (JsonVal.vstr s) =
        Except.error (PredictError.invalidCandidateType s) ∧
      (∀ (m : Model) (req : Req), missingFields req = [] →
        getv req "candidate_type" = JsonVal.vstr s →
        (∃ v1, pyFloat (getv req "mla_strength") = some v1) →
        (∃ v2, pyFloat (getv req "alliance_mla_strength") = some v2) →
        (∃ v3, pyFloat (getv req "past_rs_wins") = some v3) →
        predictOp m req = PredictResult.failure (PredictError.invalidCandidateType s))) := by
  refine ⟨rfl, rfl, rfl, ?_⟩
  intro s h1 h2
  have hres : resolveCandidateType (JsonVal.vstr s) =
      Except.error (PredictError.invalidCandidateType s) := by
    unfold resolveCandidateType
    dsimp only
    rw [h1, h2]
  refine ⟨hres, ?_⟩
  rintro m req hm hct ⟨v1, hv1⟩ ⟨v2, hv2⟩ ⟨v3, hv3⟩
  unfold predictOp
  rw [if_pos hm, hv1]
  dsimp only
  rw [hv2]
  dsimp only
  rw [hv3]
  dsimp only
  rw [hct, hres]

/-- Witness for C5: the unrecognised token garbage is rejected, concretely
through the full predict pipeline. -/
theorem predict_candidate_type_resolution_witness :
    resolveCandidateType (JsonVal.vstr "garbage") =
      Except.error (PredictError.invalidCandidateType "garbage") ∧
    predictOp ⟨["BJP"], fun _ => 0, fun _ => 1/2⟩
      [("party_name", JsonVal.vstr "BJP"), ("mla_strength", JsonVal.vnum 132),
       ("alliance_mla_strength", JsonVal.vnum 203), ("past_rs_wins", JsonVal.vnum 5),
       ("candidate_type", JsonVal.vstr "garbage")] =
      PredictResult.failure (PredictError.invalidCandidateType "garbage") := by
  have h := predict_candidate_type_resolution.2.2.2 "garbage" (by decide) (by decide)
  exact ⟨h.1, h.2 _ _ rfl rfl ⟨132, rfl⟩ ⟨203, rfl⟩ ⟨5, rfl⟩⟩

/-- C6: a prediction request whose party name was not among the fitted
classes is encoded with the code of the first fitted party (which is 0, the
index of classes_[0]) and still yields a successful prediction response. -/
theorem predict_unknown_party_first_class_fallback (m : Model) (req : Req) (p : String)
    (hm : missingFields req = [])
    (hp : getv req "party_name" = JsonVal.vstr p)
    (hunknown : p ∉ m.classes)
    (hne : m.classes ≠ [])
    (mla alliance past ct : ℚ)
    (h1 : pyFloat (getv req "mla_strength") = some mla)
    (h2 : pyFloat (getv req "alliance_mla_strength") = some alliance)
    (h3 : pyFloat (getv req "past_rs_wins") = some past)
    (h4 : resolveCandidateType (getv req "candidate_type") = Except.ok ct)
    (hpos : ¬ (mla < 0 ∨ alliance < 0 ∨ past < 0)) :
    encodeParty m.classes p = m.classes.indexOf (m.classes.headD "") ∧
    encodeParty m.classes p = 0 ∧
    ∃ fv pr pb, predictOp m req = PredictResult.success fv pr pb ∧
      fv.get? 1 = some ((encodeParty m.classes p : ℕ) : ℚ) ∧
      fv.get? 1 = some ((0 : ℕ) : ℚ) := by
  have hnone : m.classes.indexOf? p = none := by
    rw [List.indexOf?_eq_none_iff]
    intro x hx
    simp only [beq_iff_eq]
    intro hxp
    exact hunknown (hxp ▸ hx)
  have hidx : encodeParty m.classes p = m.classes.indexOf (m.classes.headD "") := by
    unfold encodeParty
    rw [hnone]
  have h0 : encodeParty m.classes p = 0 := by
    rw [hidx]
    obtain ⟨c, t, hct⟩ := List.exists_cons_of_ne_nil hne
    rw [hct]
    simp [List.headD, List.indexOf_cons_self]
  have hrun : predictOp m req = PredictResult.success
      [2027, (encodeParty m.classes p : ℚ), mla, alliance, past, ct,
       pred_has_majority alliance, pred_mla_share mla, pred_alliance_share alliance]
      (m.predictFn
        [2027, (encodeParty m.classes p : ℚ), mla, alliance, past, ct,
         pred_has_majority alliance, pred_mla_share mla, pred_alliance_share alliance])
      (pyRound2 (m.probaFn
        [2027, (encodeParty m.classes p : ℚ), mla, alliance, past, ct,
         pred_has_majority alliance, pred_mla_share mla, pred_alliance_share alliance] * 100)) := by
    unfold predictOp
    rw [if_pos hm, h1]
    dsimp only
    rw [h2]
    dsimp only
    rw [h3]
    dsimp only
    rw [h4]
    dsimp only
    rw [if_neg hpos, hp]
  refine ⟨hidx, h0, _, _, _, hrun, ?_, ?_⟩
  · simp [List.get?]
  · simp [List.get?, h0]

/-- Witness for C6: an unknown party XYZ against a model fitted on BJP and
INC is encoded as 0 and predicted successfully. -/
theorem predict_unknown_party_first_class_fallback_witness :
    encodeParty ["BJP", "INC"] "XYZ" = 0 ∧
    ∃ fv pr pb, predictOp ⟨["BJP", "INC"], fun _ => 1, fun _ => 7/10⟩
      [("party_name", JsonVal.vstr "XYZ"), ("mla_strength", JsonVal.vnum 132),
       ("alliance_mla_strength", JsonVal.vnum 203), ("past_rs_wins", JsonVal.vnum 5),
       ("candidate_type", JsonVal.vstr "incumbent")] = PredictResult.success fv pr pb ∧
      fv.get? 1 = some ((encodeParty ["BJP", "INC"] "XYZ" : ℕ) : ℚ) ∧
      fv.get? 1 = some ((0 : ℕ) : ℚ) := by
  have h := predict_unknown_party_first_class_fallback
    ⟨["BJP", "INC"], fun _ => 1, fun _ => 7/10⟩
    [("party_name", JsonVal.vstr "XYZ"), ("mla_strength", JsonVal.vnum 132),
     ("alliance_mla_strength", JsonVal.vnum 203), ("past_rs_wins", JsonVal.vnum 5),
     ("candidate_type", JsonVal.vstr "incumbent")]
    "XYZ" rfl rfl (by decide) (by decide) 132 203 5 1 rfl rfl rfl rfl (by decide)
  exact ⟨h.2.1, h.2.2⟩

/-- C4 (amended): with all required fields present, a parse failure on any of
the three numeric fields yields the invalid-numeric failure; a strictly
negative value yields the must-be-positive failure once the candidate type
has resolved; when all three parse nonnegative the numeric validation rejects
nothing; and every failure response is model-independent (no model
invocation). -/
theorem predict_numeric_validation_order (m m2 : Model) (req : Req)
    (hm : missingFields req = []) :
    ((pyFloat (getv req "mla_strength") = none ∨
      pyFloat (getv req "alliance_mla_strength") = none ∨
      pyFloat (getv req "past_rs_wins") = none) →
      predictOp m req = PredictResult.failure PredictError.invalidNumeric) ∧
    (∀ mla alliance past ct : ℚ,
      pyFloat (getv req "mla_strength") = some mla →
      pyFloat (getv req "alliance_mla_strength") = some alliance →
      pyFloat (getv req "past_rs_wins") = some past →
      resolveCandidateType (getv req "candidate_type") = Except.ok ct →
      (mla < 0 ∨ alliance < 0 ∨ past < 0) →
      predictOp m req = PredictResult.failure PredictError.mustBePositive) ∧
    (∀ mla alliance past : ℚ,
      pyFloat (getv req "mla_strength") = some mla →
      pyFloat (getv req "alliance_mla_strength") = some alliance →
      pyFloat (getv req "past_rs_wins") = some past →
      0 ≤ mla → 0 ≤ alliance → 0 ≤ past →
      predictOp m req ≠ PredictResult.failure PredictError.mustBePositive ∧
      (∀ ct : ℚ, resolveCandidateType (getv req "candidate_type") = Except.ok ct →
        predictOp m req ≠ PredictResult.failure PredictError.invalidNumeric)) ∧
    (∀ e, predictOp m req = PredictResult.failure e →
      predictOp m2 req = PredictResult.failure e) := by
  refine ⟨?_, ?_, ?_, ?_⟩
  · intro h
    unfold predictOp
    rw [if_pos hm]
    rcases h with h | h | h
    · rw [h]
    · cases hA : pyFloat (getv req "mla_strength") with
      | none => rfl
      | some mla =>
        dsimp only
        rw [h]
    · cases hA : pyFloat (getv req "mla_strength") with
      | none => rfl
      | some mla =>
        dsimp only
        cases hB : pyFloat (getv req "alliance_mla_strength") with
        | none => rfl
        | some alliance =>
          dsimp only
          rw [h]
  · intro mla alliance past ct hA hB hC hct hneg
    unfold predictOp
    rw [if_pos hm, hA]
    dsimp only
    rw [hB]
    dsimp only
    rw [hC]
    dsimp only
    rw [hct]
    dsimp only
    rw [if_pos hneg]
  · intro mla alliance past hA hB hC h0a h0b h0c
    have hnneg : ¬ (mla < 0 ∨ alliance < 0 ∨ past < 0) := by
      push_neg
      exact ⟨h0a, h0b, h0c⟩
    constructor
    · intro hcontra
      unfold predictOp at hcontra
      rw [if_pos hm, hA] at hcontra
      dsimp only at hcontra
      rw [hB] at hcontra
      dsimp only at hcontra
      rw [hC] at hcontra
      dsimp only at hcontra
      cases hct : resolveCandidateType (getv req "candidate_type") with
      | error e =>
        rw [hct] at hcontra
        dsimp only at hcontra
        have he : e = PredictError.mustBePositive := PredictResult.failure.inj hcontra
        rcases resolveCandidateType_error_cases _ _ hct with ⟨s, _, hes⟩ | ⟨_, hes⟩ <;>
          rw [hes] at he <;> cases he
      | ok ct =>
        rw [hct] at hcontra
        dsimp only at hcontra
        rw [if_neg hnneg] at hcontra
        cases hpn : getv req "party_name" with
        | vstr p =>
          rw [hpn] at hcontra
          dsimp only at hcontra
          cases hcontra
        | vnum q =>
          rw [hpn] at hcontra
          dsimp only at hcontra
          have := PredictResult.failure.inj hcontra
          cases this
        | vother =>
          rw [hpn] at hcontra
          dsimp only at hcontra
          have := PredictResult.failure.inj hcontra
          cases this
    · intro ct hct hcontra
      unfold predictOp at hcontra
      rw [if_pos hm, hA] at hcontra
      dsimp only at hcontra
      rw [hB] at hcontra
      dsimp only at hcontra
      rw [hC] at hcontra
      dsimp only at hcontra
      rw [hct] at hcontra
      dsimp only at hcontra
      rw [if_neg hnneg] at hcontra
      cases hpn : getv req "party_name" with
      | vstr p =>
        rw [hpn] at hcontra
        dsimp only at hcontra
        cases hcontra
      | vnum q =>
        rw [hpn] at hcontra
        dsimp only at hcontra
        have := PredictResult.failure.inj hcontra
        cases this
      | vother =>
        rw [hpn] at hcontra
        dsimp only at hcontra
        have := PredictResult.failure.inj hcontra
        cases this
  · intro e he
    rcases predictOp_model_indep m m2 req with h | ⟨fv, pr, pb, fv2, pr2, pb2, hs1, hs2⟩
    · rw [← h]
      exact he
    · rw [hs1] at he
      cases he

/-- Counterexample for C4 as stated: a request whose mla_strength parses to
the negative value -5 but whose candidate type is the unrecognised token
garbage is answered with the invalid-candidate-type failure, not with an
invalid-numeric or must-be-positive failure. -/
theorem predict_negative_with_bad_candidate_type_cex :
    predictOp ⟨["BJP"], fun _ => 0, fun _ => 1/2⟩
      [("party_name", JsonVal.vstr "BJP"), ("mla_strength", JsonVal.vstr "-5"),
       ("alliance_mla_strength", JsonVal.vnum 203), ("past_rs_wins", JsonVal.vnum 5),
       ("candidate_type", JsonVal.vstr "garbage")] =
      PredictResult.failure (PredictError.invalidCandidateType "garbage") ∧
    pyFloat (getv
      [("party_name", JsonVal.vstr "BJP"), ("mla_strength", JsonVal.vstr "-5"),
       ("alliance_mla_strength", JsonVal.vnum 203), ("past_rs_wins", JsonVal.vnum 5),
       ("candidate_type", JsonVal.vstr "garbage")] "mla_strength") = some (-5) ∧
    ((-5 : ℚ) < 0) ∧
    PredictError.invalidCandidateType "garbage" ≠ PredictError.invalidNumeric ∧
    PredictError.invalidCandidateType "garbage" ≠ PredictError.mustBePositive :=
  ⟨by decide, by decide, by decide, by decide, by decide⟩

/-- Witness for C4: on a request whose mla_strength is the unparsable token
abc the endpoint answers with the invalid-numeric failure, and on a request
with nonnegative parsed values the numeric validation rejects nothing. -/
theorem predict_numeric_validation_order_witness :
    predictOp ⟨["BJP"], fun _ => 0, fun _ => 1/2⟩
      [("party_name", JsonVal.vstr "BJP"), ("mla_strength", JsonVal.vstr "abc"),
       ("alliance_mla_strength", JsonVal.vnum 203), ("past_rs_wins", JsonVal.vnum 5),
       ("candidate_type", JsonVal.vstr "incumbent")] =
      PredictResult.failure PredictError.invalidNumeric ∧
    predictOp ⟨["BJP"], fun _ => 0, fun _ => 1/2⟩
      [("party_name", JsonVal.vstr "BJP"), ("mla_strength", JsonVal.vnum 132),
       ("alliance_mla_strength", JsonVal.vnum 203), ("past_rs_wins", JsonVal.vnum 5),
       ("candidate_type", JsonVal.vstr "incumbent")] ≠
      PredictResult.failure PredictError.mustBePositive :=
  ⟨(predict_numeric_validation_order ⟨["BJP"], fun _ => 0, fun _ => 1/2⟩
      ⟨["BJP"], fun _ => 0, fun _ => 1/2⟩
      [("party_name", JsonVal.vstr "BJP"), ("mla_strength", JsonVal.vstr "abc"),
       ("alliance_mla_strength", JsonVal.vnum 203), ("past_rs_wins", JsonVal.vnum 5),
       ("candidate_type", JsonVal.vstr "incumbent")] rfl).1 (Or.inl rfl),
   ((predict_numeric_validation_order ⟨["BJP"], fun _ => 0, fun _ => 1/2⟩
      ⟨["BJP"], fun _ => 0, fun _ => 1/2⟩
      [("party_name", JsonVal.vstr "BJP"), ("mla_strength", JsonVal.vnum 132),
       ("alliance_mla_strength", JsonVal.vnum 203), ("past_rs_wins", JsonVal.vnum 5),
       ("candidate_type", JsonVal.vstr "incumbent")] rfl).2.2.1 132 203 5 rfl rfl rfl
      (by norm_num) (by norm_num) (by norm_num)).1⟩

/-- C7: every training record is weighted 0.85 ^ (max_year - year); a record
of the most recent year has weight exactly 1, weights strictly decrease as
records get older, and the stats endpoint counts records without weights
(total_records is the plain table length). -/
theorem training_recency_weights (data : List Row) (r r2 : Row)
    (hr : r ∈ data) (hr2 : r2 ∈ data) :
    sampleWeight data r = (0.85 : ℚ) ^ (trainMaxYear data - r.year).toNat ∧
    (r.year = trainMaxYear data → sampleWeight data r = 1) ∧
    (r.year < r2.year → sampleWeight data r < sampleWeight data r2) ∧
    stats_total_records data = data.length := by
  refine ⟨rfl, ?_, ?_, rfl⟩
  · intro h
    unfold sampleWeight
    rw [h, sub_self]
    simp
  · intro hlt
    have hy2 : r2.year ≤ trainMaxYear data :=
      le_listMaxInt (List.mem_map_of_mem (fun s => s.year) hr2)
    have hexp : (trainMaxYear data - r2.year).toNat < (trainMaxYear data - r.year).toNat := by
      omega
    unfold sampleWeight
    exact pow_lt_pow_right_of_lt_one₀ (by norm_num) (by norm_num) hexp

/-- Witness for C7 on a two-row table spanning 2020 and 2024. -/
theorem training_recency_weights_witness :
    sampleWeight [⟨2020, "INC", 50, 60, 2, some 2, 0⟩, ⟨2024, "BJP", 132, 203, 5, some 1, 1⟩]
      ⟨2024, "BJP", 132, 203, 5, some 1, 1⟩ = 1 ∧
    sampleWeight [⟨2020, "INC", 50, 60, 2, some 2, 0⟩, ⟨2024, "BJP", 132, 203, 5, some 1, 1⟩]
        ⟨2020, "INC", 50, 60, 2, some 2, 0⟩ <
      sampleWeight [⟨2020, "INC", 50, 60, 2, some 2, 0⟩, ⟨2024, "BJP", 132, 203, 5, some 1, 1⟩]
        ⟨2024, "BJP", 132, 203, 5, some 1, 1⟩ :=
  ⟨(training_recency_weights
      [⟨2020, "INC", 50, 60, 2, some 2, 0⟩, ⟨2024, "BJP", 132, 203, 5, some 1, 1⟩]
      ⟨2024, "BJP", 132, 203, 5, some 1, 1⟩ ⟨2024, "BJP", 132, 203, 5, some 1, 1⟩
      (by decide) (by decide)).2.1 (by decide),
   (training_recency_weights _ ⟨2020, "INC", 50, 60, 2, some 2, 0⟩
      ⟨2024, "BJP", 132, 203, 5, some 1, 1⟩ (by decide) (by decide)).2.2.1 (by decide)⟩

/-- C9 (amended): the win rate returned by the party-info operation of the
logistic-regression service equals 100 * wins / total_elections rounded to
one decimal, and lies in [0, 100]. -/
theorem lp_win_rate_rounded_bounds (data : List Row) (p : String)
    (h : partyDataSorted data p ≠ []) :
    lpWinRate data p =
      some (pyRound1 ((lpWins data p : ℚ) / (lpTotal data p : ℚ) * 100)) ∧
    ∃ q, lpWinRate data p = some q ∧ 0 ≤ q ∧ q ≤ 100 := by
  have hpos : 0 < lpTotal data p := by
    unfold lpTotal
    exact List.length_pos.mpr h
  have heq : lpWinRate data p =
      some (pyRound1 ((lpWins data p : ℚ) / (lpTotal data p : ℚ) * 100)) := by
    unfold lpWinRate
    rw [if_neg h, if_pos hpos]
  set x : ℚ := (lpWins data p : ℚ) / (lpTotal data p : ℚ) * 100 with hxdef
  have hwt : lpWins data p ≤ lpTotal data p := by
    unfold lpWins lpTotal
    exact List.length_filter_le _ _
  have hx0 : 0 ≤ x := by
    rw [hxdef]
    positivity
  have hx100 : x ≤ 100 := by
    have h1 : (lpWins data p : ℚ) / (lpTotal data p : ℚ) ≤ 1 := by
      rw [div_le_one (by exact_mod_cast hpos)]
      exact_mod_cast hwt
    rw [hxdef]
    linarith
  refine ⟨heq, pyRound1 x, heq, ?_, ?_⟩
  · unfold pyRound1
    have h2 : (0 : ℤ) ≤ roundHalfEven (x * 10) := le_roundHalfEven (by push_cast; linarith)
    have h3 : (0 : ℚ) ≤ (roundHalfEven (x * 10) : ℚ) := by exact_mod_cast h2
    linarith
  · unfold pyRound1
    have h2 : roundHalfEven (x * 10) ≤ (1000 : ℤ) := roundHalfEven_le (by push_cast; linarith)
    have h3 : ((roundHalfEven (x * 10) : ℤ) : ℚ) ≤ 1000 := by exact_mod_cast h2
    linarith

/-- Counterexample for C9 as stated: a party with one win in three records
is reported with win rate 33.3, which is not equal to 100 * 1 / 3. -/
theorem lp_win_rate_not_exact_cex :
    lpWinRate [⟨2020, "A", 10, 10, 0, none, 1⟩, ⟨2021, "A", 10, 10, 0, none, 0⟩,
               ⟨2022, "A", 10, 10, 0, none, 0⟩] "A" = some (333/10) ∧
    (lpWins [⟨2020, "A", 10, 10, 0, none, 1⟩, ⟨2021, "A", 10, 10, 0, none, 0⟩,
             ⟨2022, "A", 10, 10, 0, none, 0⟩] "A" : ℚ) /
      (lpTotal [⟨2020, "A", 10, 10, 0, none, 1⟩, ⟨2021, "A", 10, 10, 0, none, 0⟩,
                ⟨2022, "A", 10, 10, 0, none, 0⟩] "A" : ℚ) * 100 = 100/3 ∧
    (333/10 : ℚ) ≠ 100/3 := by
  have hw : lpWins [⟨2020, "A", 10, 10, 0, none, 1⟩, ⟨2021, "A", 10, 10, 0, none, 0⟩,
      ⟨2022, "A", 10, 10, 0, none, 0⟩] "A" = 1 := by decide
  have ht : lpTotal [⟨2020, "A", 10, 10, 0, none, 1⟩, ⟨2021, "A", 10, 10, 0, none, 0⟩,
      ⟨2022, "A", 10, 10, 0, none, 0⟩] "A" = 3 := by decide
  have hne : partyDataSorted [⟨2020, "A", 10, 10, 0, none, 1⟩, ⟨2021, "A", 10, 10, 0, none, 0⟩,
      ⟨2022, "A", 10, 10, 0, none, 0⟩] "A" ≠ [] := by decide
  refine ⟨?_, ?_, by norm_num⟩
  · unfold lpWinRate
    rw [if_neg hne, hw, ht]
    norm_num
    unfold pyRound1 roundHalfEven
    norm_num
  · rw [hw, ht]
    norm_num

/-- Witness for C9 on the same three-row table. -/
theorem lp_win_rate_rounded_bounds_witness :
    lpWinRate [⟨2020, "A", 10, 10, 0, none, 1⟩, ⟨2021, "A", 10, 10, 0, none, 0⟩,
               ⟨2022, "A", 10, 10, 0, none, 0⟩] "A" =
      some (pyRound1
        ((lpWins [⟨2020, "A", 10, 10, 0, none, 1⟩, ⟨2021, "A", 10, 10, 0, none, 0⟩,
                  ⟨2022, "A", 10, 10, 0, none, 0⟩] "A" : ℚ) /
         (lpTotal [⟨2020, "A", 10, 10, 0, none, 1⟩, ⟨2021, "A", 10, 10, 0, none, 0⟩,
                   ⟨2022, "A", 10, 10, 0, none, 0⟩] "A" : ℚ) * 100)) ∧
    ∃ q, lpWinRate [⟨2020, "A", 10, 10, 0, none, 1⟩, ⟨2021, "A", 10, 10, 0, none, 0⟩,
                    ⟨2022, "A", 10, 10, 0, none, 0⟩] "A" = some q ∧ 0 ≤ q ∧ q ≤ 100 :=
  lp_win_rate_rounded_bounds _ "A" (by decide)

/-- C10: the recency-weighted win rate of get_party_info in the
random-forest service takes the reference year from the rows of the party
itself (adding rows of other parties, however recent, does not change it),
and a party whose single record is a win is reported with weighted win rate
100 no matter how old that record is. -/
theorem rf_weighted_win_rate_party_reference (data extra : List Row) (p : String) (r : Row)
    (hextra : ∀ s ∈ extra, s.party ≠ p) :
    rfMaxYear data p = listMaxInt ((partyDataSorted data p).map (fun s => s.year)) ∧
    rfWinRate (data ++ extra) p = rfWinRate data p ∧
    (partyRows data p = [r] → r.winner = 1 → rfWinRate data p = some 100) := by
  have hrows : partyRows (data ++ extra) p = partyRows data p := by
    unfold partyRows
    rw [List.filter_append]
    have hnil : extra.filter (fun s => s.party == p) = [] := by
      rw [List.filter_eq_nil_iff]
      intro s hs
      simp only [beq_iff_eq]
      exact hextra s hs
    rw [hnil, List.append_nil]
  have hpd : partyDataSorted (data ++ extra) p = partyDataSorted data p := by
    unfold partyDataSorted
    rw [hrows]
  refine ⟨rfl, ?_, ?_⟩
  · unfold rfWinRate rfTotalWeight rfWeights rfWeightedWins rfMaxYear
    rw [hpd]
  · intro hsingle hw
    have hpd1 : partyDataSorted data p = [r] := by
      unfold partyDataSorted
      rw [hsingle]
      simp [List.insertionSort, List.orderedInsert]
    have hmy : rfMaxYear data p = r.year := by
      unfold rfMaxYear
      rw [hpd1]
      rfl
    have hww : rfWeightedWins data p = 1 := by
      unfold rfWeightedWins
      rw [hpd1]
      simp only [hmy]
      simp [hw]
    have htw : rfTotalWeight data p = 1 := by
      unfold rfTotalWeight rfWeights
      rw [hpd1]
      simp only [hmy]
      simp
    unfold rfWinRate
    rw [hpd1, hww, htw]
    norm_num
    unfold pyRound1 roundHalfEven
    norm_num

/-- Witness for C10: a party whose only record is a 1952 win keeps weighted
win rate 100 even when another party has a 2024 record in the table. -/
theorem rf_weighted_win_rate_party_reference_witness :
    rfWinRate ([⟨1952, "A", 1, 1, 0, none, 1⟩] ++ [⟨2024, "B", 9, 9, 0, none, 1⟩]) "A" =
      rfWinRate [⟨1952, "A", 1, 1, 0, none, 1⟩] "A" ∧
    rfWinRate [⟨1952, "A", 1, 1, 0, none, 1⟩] "A" = some 100 := by
  have h := rf_weighted_win_rate_party_reference [⟨1952, "A", 1, 1, 0, none, 1⟩]
    [⟨2024, "B", 9, 9, 0, none, 1⟩] "A" ⟨1952, "A", 1, 1, 0, none, 1⟩ (by decide)
  exact ⟨h.2.1, h.2.2 (by decide) rfl⟩

/-- Core invariant of the winner recomputation: for every year present in
the table, exactly one row of that year carries winner 1, that row attains
the maximum mla_strength of the year, and every winner flag is 0 or 1. -/
theorem fixWinner_spec (rows : List Row) (y : Int) (hy : ∃ r ∈ rows, r.year = y) :
    (fixWinner rows).countP (fun r => r.year == y && r.winner == 1) = 1 ∧
    (∃ w ∈ fixWinner rows, w.year = y ∧ w.winner = 1 ∧
      ∀ s ∈ fixWinner rows, s.year = y → s.mla_strength ≤ w.mla_strength) ∧
    (∀ s ∈ fixWinner rows, s.winner = 0 ∨ s.winner = 1) := by
  obtain ⟨r, hr, hry⟩ := hy
  obtain ⟨k, hk, hrk⟩ := List.mem_iff_getElem.mp hr
  have hkmem : k ∈ yearIdxList rows y := by
    unfold yearIdxList
    apply List.mem_filter.mpr
    refine ⟨List.mem_range.mpr hk, ?_⟩
    rw [List.getD_eq_getElem rows default hk, hrk]
    simp [hry]
  obtain ⟨i0, hi0⟩ : ∃ j, yearWinnerIdx rows y = some j := by
    unfold yearWinnerIdx
    obtain ⟨b, L, hbl⟩ := List.exists_cons_of_ne_nil (List.ne_nil_of_mem hkmem)
    rw [hbl]
    exact idxmaxFrom_cons_exists rows b L
  have hi0mem : i0 ∈ yearIdxList rows y := idxmaxFrom_mem rows hi0
  have hi0n : i0 < rows.length := List.mem_range.mp ((List.mem_filter.mp hi0mem).1)
  have hi0y : (rows.getD i0 default).year = y := by
    have h2 := (List.mem_filter.mp hi0mem).2
    simpa using h2
  have hmax : ∀ i ∈ yearIdxList rows y,
      (rows.getD i default).mla_strength ≤ (rows.getD i0 default).mla_strength :=
    idxmaxFrom_le rows hi0
  refine ⟨?_, ?_, ?_⟩
  · unfold fixWinner
    rw [List.countP_map]
    have h1 : List.countP (fun i => i == i0) (List.range rows.length) = 1 := by
      rw [countP_beq_range i0 rows.length, if_pos hi0n]
    rw [← h1]
    apply List.countP_congr
    intro i hi
    simp only [Function.comp]
    constructor
    · intro hp
      simp only [Bool.and_eq_true, beq_iff_eq] at hp
      obtain ⟨hpy, hpw⟩ := hp
      by_cases hcond : yearWinnerIdx rows (rows.getD i default).year = some i
      · rw [hpy, hi0] at hcond
        have hii : i = i0 := (Option.some.inj hcond).symm
        simp [hii]
      · rw [if_neg hcond] at hpw
        exact absurd hpw (by decide)
    · intro hq
      have hii0 : i = i0 := by simpa using hq
      subst hii0
      simp only [Bool.and_eq_true, beq_iff_eq]
      refine ⟨hi0y, ?_⟩
      rw [hi0y, if_pos hi0]
  · refine ⟨{ rows.getD i0 default with
        winner := if yearWinnerIdx rows (rows.getD i0 default).year = some i0 then 1 else 0 },
      ?_, ?_, ?_, ?_⟩
    · unfold fixWinner
      exact List.mem_map.mpr ⟨i0, List.mem_range.mpr hi0n, rfl⟩
    · exact hi0y
    · show (if yearWinnerIdx rows (rows.getD i0 default).year = some i0 then (1 : Int) else 0) = 1
      rw [hi0y, if_pos hi0]
    · intro s hs hsy
      unfold fixWinner at hs
      obtain ⟨j, hj, hjs⟩ := List.mem_map.mp hs
      have hsmla : s.mla_strength = (rows.getD j default).mla_strength := by rw [← hjs]
      have hsyear : s.year = (rows.getD j default).year := by rw [← hjs]
      have hjmem : j ∈ yearIdxList rows y := by
        unfold yearIdxList
        apply List.mem_filter.mpr
        refine ⟨hj, ?_⟩
        rw [← hsyear]
        simp [hsy]
      have hb := hmax j hjmem
      rw [hsmla]
      exact hb
  · intro s hs
    unfold fixWinner at hs
    obtain ⟨j, hj, hjs⟩ := List.mem_map.mp hs
    rw [← hjs]
    by_cases hcond : yearWinnerIdx rows (rows.getD j default).year = some j
    · right
      show (if yearWinnerIdx rows (rows.getD j default).year = some j then (1 : Int) else 0) = 1
      rw [if_pos hcond]
    · left
      show (if yearWinnerIdx rows (rows.getD j default).year = some j then (1 : Int) else 0) = 0
      rw [if_neg hcond]

/-- C2: in every table produced by the data cleaner, for every year present,
exactly one row of that year has winner 1, that row attains the maximum
mla_strength among the rows of its year, and every winner flag is 0 or 1
(so all other rows of the year have winner 0). -/
theorem cleaner_unique_winner_max_mla (raw : List RawRow) (y : Int)
    (hy : ∃ r ∈ cleanData raw, r.year = y) :
    (cleanData raw).countP (fun r => r.year == y && r.winner == 1) = 1 ∧
    (∃ w ∈ cleanData raw, w.year = y ∧ w.winner = 1 ∧
      ∀ s ∈ cleanData raw, s.year = y → s.mla_strength ≤ w.mla_strength) ∧
    (∀ s ∈ cleanData raw, s.winner = 0 ∨ s.winner = 1) := by
  have hperm : (cleanData raw).Perm (fixWinner (preWinner raw)) := by
    unfold cleanData
    exact List.perm_insertionSort _ _
  have hy2 : ∃ r ∈ fixWinner (preWinner raw), r.year = y := by
    obtain ⟨r, hr, hry⟩ := hy
    exact ⟨r, hperm.mem_iff.mp hr, hry⟩
  have hy3 : ∃ r ∈ preWinner raw, r.year = y := by
    obtain ⟨r, hr, hry⟩ := hy2
    unfold fixWinner at hr
    obtain ⟨j, hj, hjr⟩ := List.mem_map.mp hr
    have hjn : j < (preWinner raw).length := List.mem_range.mp hj
    refine ⟨(preWinner raw).getD j default, ?_, ?_⟩
    · rw [List.getD_eq_getElem _ default hjn]
      exact List.getElem_mem hjn
    · rw [← hjr] at hry
      exact hry
  obtain ⟨hcount, ⟨w, hw, hwy, hww, hwmax⟩, h01⟩ := fixWinner_spec (preWinner raw) y hy3
  refine ⟨?_, ⟨w, hperm.mem_iff.mpr hw, hwy, hww, ?_⟩, ?_⟩
  · rw [List.Perm.countP_eq _ hperm]
    exact hcount
  · intro s hs hsy
    exact hwmax s (hperm.mem_iff.mp hs) hsy
  · intro s hs
    exact h01 s (hperm.mem_iff.mp hs)

/-- Witness for C2 on a concrete raw table with a duplicate row, a party
spelling variant and two years. -/
theorem cleaner_unique_winner_max_mla_witness :
    (cleanData [⟨2020, "BJP", 100, 150, 3, "new", 0⟩, ⟨2020, "INC(I)", 50, 60, 2, "incumbent", 1⟩,
      ⟨2021, "BJP", 110, 160, 3, "mixed", 0⟩, ⟨2020, "BJP", 100, 150, 3, "new", 0⟩]).countP
      (fun r => r.year == 2020 && r.winner == 1) = 1 ∧
    (∃ w ∈ cleanData [⟨2020, "BJP", 100, 150, 3, "new", 0⟩, ⟨2020, "INC(I)", 50, 60, 2, "incumbent", 1⟩,
        ⟨2021, "BJP", 110, 160, 3, "mixed", 0⟩, ⟨2020, "BJP", 100, 150, 3, "new", 0⟩],
      w.year = 2020 ∧ w.winner = 1 ∧
      ∀ s ∈ cleanData [⟨2020, "BJP", 100, 150, 3, "new", 0⟩, ⟨2020, "INC(I)", 50, 60, 2, "incumbent", 1⟩,
        ⟨2021, "BJP", 110, 160, 3, "mixed", 0⟩, ⟨2020, "BJP", 100, 150, 3, "new", 0⟩],
        s.year = 2020 → s.mla_strength ≤ w.mla_strength) ∧
    (∀ s ∈ cleanData [⟨2020, "BJP", 100, 150, 3, "new", 0⟩, ⟨2020, "INC(I)", 50, 60, 2, "incumbent", 1⟩,
        ⟨2021, "BJP", 110, 160, 3, "mixed", 0⟩, ⟨2020, "BJP", 100, 150, 3, "new", 0⟩],
      s.winner = 0 ∨ s.winner = 1) :=
  cleaner_unique_winner_max_mla
    [⟨2020, "BJP", 100, 150, 3, "new", 0⟩, ⟨2020, "INC(I)", 50, 60, 2, "incumbent", 1⟩,
     ⟨2021, "BJP", 110, 160, 3, "mixed", 0⟩, ⟨2020, "BJP", 100, 150, 3, "new", 0⟩]
    2020 (by decide)
